import Mathlib

/-!
Verification of the Maestro wearable firmware core
(audio ring buffer, VAD state machine, YIN pitch estimator, turn detector).

The definitions below are a shallow embedding of the C++ sources:
  - src/firmware/src/audio_capture.cpp  (ring buffer)
  - src/firmware/src/vad_detector.cpp   (VAD state machine)
  - src/firmware/src/pitch_detector.cpp (YIN pitch estimation)
  - src/firmware/src/main.cpp           (turn detector / main loop)

Machine integers are modelled as Nat/Int; `uint32_t` subtraction is modelled
with an explicit wrap (`u32_sub`).  `float` quantities are modelled as exact
rationals; the only square root in the sources (RMS energy) is handled by
comparing squared values, which is equivalent for the order comparisons the
code performs.
-/

/-! ## Audio ring buffer (audio_capture.cpp) -/

/-- `AUDIO_BUFFER_SIZE` from audio_capture.h: 16000 * 10 samples. -/
def AUDIO_BUFFER_SIZE : Nat := 160000

/-- `AUDIO_FRAME_SAMPLES` from audio_capture.h: 480 samples (30 ms at 16 kHz). -/
def AUDIO_FRAME_SAMPLES : Nat := 480

/-- The module state of audio_capture.cpp: the circular sample store and the
two cursors.  The fixed C array `audio_buffer` is modelled as a total function
on indices. -/
structure AudioState where
  buffer : Nat → Int
  write_index : Nat
  read_index : Nat

/-- Initial state after `audio_init`: zeroed buffer, both cursors at 0. -/
def audio_init_state : AudioState :=
  { buffer := fun _ => 0, write_index := 0, read_index := 0 }

/-- One iteration of the copy loop in `audio_process`: store the sample at the
write cursor, advance it mod the capacity, and if it caught up with the read
cursor advance that one too (overwrite-oldest policy). -/
def push_sample (st : AudioState) (s : Int) : AudioState :=
  let buf := fun i => if i = st.write_index then s else st.buffer i
  let w := (st.write_index + 1) % AUDIO_BUFFER_SIZE
  if w = st.read_index then
    { buffer := buf, write_index := w,
      read_index := (st.read_index + 1) % AUDIO_BUFFER_SIZE }
  else
    { buffer := buf, write_index := w, read_index := st.read_index }

/-- The sample-copy loop of `audio_process` applied to a block of samples read
from the I2S peripheral. -/
def audio_process (st : AudioState) (samples : List Int) : AudioState :=
  samples.foldl push_sample st

/-- `audio_frames_available` from audio_capture.cpp, verbatim: despite its
name it returns `write_index - read_index` modulo the capacity. -/
def audio_frames_available (st : AudioState) : Nat :=
  if st.read_index ≤ st.write_index then st.write_index - st.read_index
  else AUDIO_BUFFER_SIZE - st.read_index + st.write_index

/-- `audio_get_frame`: if at least `AUDIO_FRAME_SAMPLES` samples are counted
as available, copy one frame starting at the read cursor and advance the read
cursor by a frame; otherwise report not-ready and leave the state unchanged. -/
def audio_get_frame (st : AudioState) : Option (List Int) × AudioState :=
  if audio_frames_available st < AUDIO_FRAME_SAMPLES then (none, st)
  else
    (some ((List.range AUDIO_FRAME_SAMPLES).map
        (fun i => st.buffer ((st.read_index + i) % AUDIO_BUFFER_SIZE))),
     { st with read_index := (st.read_index + AUDIO_FRAME_SAMPLES) % AUDIO_BUFFER_SIZE })

/-- Cursor sanity invariant: both cursors stay below the capacity.  It holds
initially and is maintained by every operation. -/
def AudioInv (st : AudioState) : Prop :=
  st.write_index < AUDIO_BUFFER_SIZE ∧ st.read_index < AUDIO_BUFFER_SIZE

instance (st : AudioState) : Decidable (AudioInv st) := by
  unfold AudioInv; infer_instance

/-- Abstraction map: the queue of unread samples, oldest first.  Position `i`
of the queue lives at buffer slot `read_index + i` mod capacity. -/
def unread (st : AudioState) : List Int :=
  (List.range (audio_frames_available st)).map
    (fun i => st.buffer ((st.read_index + i) % AUDIO_BUFFER_SIZE))

/-! ## Voice activity detector (vad_detector.cpp)

The VAD state machine is embedded verbatim.  Per-frame feature extraction:
`calculate_zcr` is exact rational arithmetic, but `calculate_energy` takes a
float square root, so a frame is modelled as carrying the energy and
zero-crossing values the C feature extractors produce (as exact rationals).
All downstream uses of these values — threshold comparisons, the noise-floor
EMA, and the per-segment accumulators — are embedded exactly. -/

/-- `uint32_t` subtraction `a - b` for `a b < 2^32`, with wrap-around. -/
def u32_sub (a b : Nat) : Nat := (2 ^ 32 + a - b) % 2 ^ 32

/-- `VADState` from vad_detector.h. -/
inductive VADState where
  | silence
  | speech
  | hangover
deriving DecidableEq, Repr

/-- `VAD_DEFAULT_THRESHOLD` from vad_detector.h (0.02). -/
def VAD_DEFAULT_THRESHOLD : ℚ := 2 / 100

/-- `VAD_MIN_SPEECH_MS` from vad_detector.h. -/
def VAD_MIN_SPEECH_MS : Nat := 100

/-- `VAD_HANGOVER_MS` from vad_detector.h. -/
def VAD_HANGOVER_MS : Nat := 200

/-- `SpeechSegment` from vad_detector.h. -/
structure SpeechSegment where
  start_ms : Nat
  end_ms : Nat
  duration_ms : Nat
  avg_energy : ℚ
deriving DecidableEq, Repr

/-- The module statics of vad_detector.cpp. -/
structure VadVars where
  energy_threshold : ℚ
  adaptive_enabled : Bool
  current_state : VADState
  state_start_time : Nat
  last_speech_time : Nat
  speech_start_time : Nat
  noise_floor : ℚ
  pending_segment : SpeechSegment
  segment_ready : Bool
  segment_energy_sum : ℚ
  segment_frame_count : Nat
deriving DecidableEq, Repr

/-- State at module load plus `vad_init` (all statics zero-initialised, then
`vad_init` at time `now` sets the listed fields; `noise_floor` starts at
0.01). -/
def vad_init (now : Nat) : VadVars :=
  { energy_threshold := VAD_DEFAULT_THRESHOLD
    adaptive_enabled := false
    current_state := VADState.silence
    state_start_time := now
    last_speech_time := 0
    speech_start_time := 0
    noise_floor := 1 / 100
    pending_segment := { start_ms := 0, end_ms := 0, duration_ms := 0, avg_energy := 0 }
    segment_ready := false
    segment_energy_sum := 0
    segment_frame_count := 0 }

/-- `update_noise_floor`: EMA with alpha 0.995, only while in Silence,
clamped to the band 0.001 to 0.1. -/
def update_noise_floor (st : VadVars) (energy : ℚ) : VadVars :=
  if st.current_state = VADState.silence then
    let nf := (995 / 1000) * st.noise_floor + (1 - 995 / 1000) * energy
    let nf := if nf < 1 / 1000 then 1 / 1000 else nf
    let nf := if nf > 1 / 10 then 1 / 10 else nf
    { st with noise_floor := nf }
  else st

/-- `get_effective_threshold`: three times the noise floor in adaptive mode,
else the configured threshold. -/
def get_effective_threshold (st : VadVars) : ℚ :=
  if st.adaptive_enabled then st.noise_floor * 3 else st.energy_threshold

/-- `transition_to` from vad_detector.cpp: on leaving Speech the pending
segment record is finalised (end time, duration, mean energy) and marked
ready when its duration reaches `VAD_MIN_SPEECH_MS`; on entering Speech the
pending segment start and the accumulators are (re)initialised. -/
def transition_to (st : VadVars) (new_state : VADState) (now : Nat) : VadVars :=
  if st.current_state = new_state then st
  else
    let st1 :=
      if st.current_state = VADState.speech then
        let seg : SpeechSegment :=
          { start_ms := st.pending_segment.start_ms
            end_ms := now
            duration_ms := u32_sub now st.pending_segment.start_ms
            avg_energy :=
              if st.segment_frame_count > 0 then
                st.segment_energy_sum / st.segment_frame_count
              else 0 }
        { st with
            pending_segment := seg
            segment_ready :=
              if VAD_MIN_SPEECH_MS ≤ seg.duration_ms then true else st.segment_ready
            last_speech_time := now }
      else st
    let st2 :=
      if new_state = VADState.speech then
        { st1 with
            pending_segment := { st1.pending_segment with start_ms := now }
            segment_energy_sum := 0
            segment_frame_count := 0
            speech_start_time := now }
      else st1
    { st2 with current_state := new_state, state_start_time := now }

/-- A processed frame as seen by `vad_process`: the validity flag and capture
timestamp of the `AudioFrame`, together with the energy (normalised RMS) and
zero-crossing rate that `calculate_energy` / `calculate_zcr` compute from its
samples. -/
structure FrameIn where
  valid : Bool
  timestamp_ms : Nat
  energy : ℚ
  zcr : ℚ
deriving DecidableEq, Repr

/-- `VADResult` from vad_detector.h. -/
structure VADResult where
  is_speech : Bool
  energy : ℚ
  threshold : ℚ
  state : VADState
  speech_start : Nat
  speech_duration_ms : Nat
deriving DecidableEq, Repr

/-- The per-frame speech decision of `vad_process`: energy above the
effective threshold, except that a zero-crossing rate outside the plausible
speech band (below 0.05 or above 0.5) raises the requirement to 1.5 times
the threshold. -/
def vad_decide_speech (threshold energy zcr : ℚ) : Bool :=
  let fis0 : Bool := decide (threshold < energy)
  if fis0 ∧ (zcr < 5 / 100 ∨ zcr > 5 / 10) then decide (threshold * (15 / 10) < energy)
  else fis0

/-- The `switch (current_state)` block of `vad_process`. -/
def vad_state_machine (st : VadVars) (energy : ℚ) (frame_is_speech : Bool)
    (now : Nat) : VadVars :=
  match st.current_state with
  | VADState.silence =>
      if frame_is_speech then transition_to st VADState.speech now else st
  | VADState.speech =>
      let stAcc := { st with
        segment_energy_sum := st.segment_energy_sum + energy
        segment_frame_count := st.segment_frame_count + 1 }
      if ¬ frame_is_speech then transition_to stAcc VADState.hangover now
      else stAcc
  | VADState.hangover =>
      if frame_is_speech then transition_to st VADState.speech now
      else if VAD_HANGOVER_MS < u32_sub now st.state_start_time then
        transition_to st VADState.silence now
      else st

/-- `vad_process` from vad_detector.cpp.  The argument is `none` for a null
frame pointer.  Returns the updated module state and the per-frame result. -/
def vad_process (st : VadVars) (frame : Option FrameIn) : VadVars × VADResult :=
  let result : VADResult :=
    { is_speech := false
      energy := 0
      threshold := get_effective_threshold st
      state := st.current_state
      speech_start := 0
      speech_duration_ms := 0 }
  match frame with
  | none => (st, result)
  | some f =>
    if f.valid = false then (st, result)
    else
      let now := f.timestamp_ms
      let energy := f.energy
      let zcr := f.zcr
      let st1 := if st.adaptive_enabled then update_noise_floor st energy else st
      let threshold := get_effective_threshold st1
      let frame_is_speech := vad_decide_speech threshold energy zcr
      let st2 := vad_state_machine st1 energy frame_is_speech now
      let is_sp : Bool :=
        decide (st2.current_state = VADState.speech ∨
                st2.current_state = VADState.hangover)
      (st2,
       { is_speech := is_sp
         energy := energy
         threshold := threshold
         state := st2.current_state
         speech_start := if is_sp then st2.speech_start_time else 0
         speech_duration_ms := if is_sp then u32_sub now st2.speech_start_time else 0 })

/-- `vad_get_segment`: drains the single pending segment if flagged ready. -/
def vad_get_segment (st : VadVars) : Option SpeechSegment × VadVars :=
  if st.segment_ready then (some st.pending_segment, { st with segment_ready := false })
  else (none, st)

/-- `vad_reset` from vad_detector.cpp (note: it does not touch
`noise_floor`, `energy_threshold`, `adaptive_enabled`, or the contents of
`pending_segment`). -/
def vad_reset (st : VadVars) (now : Nat) : VadVars :=
  { st with
      current_state := VADState.silence
      state_start_time := now
      last_speech_time := 0
      speech_start_time := 0
      segment_ready := false
      segment_energy_sum := 0
      segment_frame_count := 0 }

/-- `vad_silence_duration` at wall-clock time `now`. -/
def vad_silence_duration (st : VadVars) (now : Nat) : Nat :=
  if st.current_state = VADState.speech ∨ st.current_state = VADState.hangover then 0
  else if st.last_speech_time = 0 then 0
  else u32_sub now st.last_speech_time

/-- Folding `vad_process` over a list of frames (the per-tick VAD calls of
the main loop), keeping only the module state. -/
def vadRun (st : VadVars) (frames : List FrameIn) : VadVars :=
  frames.foldl (fun s f => (vad_process s (some f)).1) st

/-- A clearly-voiced test frame: energy 0.2 (above every threshold in play)
with zero-crossing rate 0.2, inside the plausible speech band. -/
def speech_frame (t : Nat) : FrameIn :=
  { valid := true, timestamp_ms := t, energy := 1 / 5, zcr := 1 / 5 }

/-- A silent test frame: energy 0. -/
def quiet_frame (t : Nat) : FrameIn :=
  { valid := true, timestamp_ms := t, energy := 0, zcr := 1 / 5 }

/-- 120 ms of speech (frames every 30 ms) followed by one quiet frame at
t = 120: rises through Silence to Speech and then enters Hangover. -/
def hangover_frames : List FrameIn :=
  [speech_frame 0, speech_frame 30, speech_frame 60, speech_frame 90, quiet_frame 120]

/-- Speech resuming at t = 150 (30 ms into the 200 ms hangover window) and
continuing to a second pause at t = 270. -/
def resume_frames : List FrameIn :=
  hangover_frames ++
    [speech_frame 150, speech_frame 180, speech_frame 210, speech_frame 240,
     quiet_frame 270]

/-- Speech resuming at t = 180 for a single 30 ms burst ending at t = 210,
with the segment closed at t = 120 never drained. -/
def short_burst_frames : List FrameIn :=
  hangover_frames ++ [speech_frame 180, quiet_frame 210]

/-- One iteration of the main loop's per-frame VAD work when the segment
buffer is drained right after each `vad_process` call, as `loop()` does:
process the frame, then collect the pending segment if one is ready. -/
def drain_step (acc : VadVars × List SpeechSegment) (f : FrameIn) :
    VadVars × List SpeechSegment :=
  let s1 := (vad_process acc.1 (some f)).1
  ((vad_get_segment s1).2, acc.2 ++ (vad_get_segment s1).1.toList)

/-- Run the VAD over a frame list, draining the segment buffer after every
frame; returns the final state and all published segments in order. -/
def vadRunDrained (st : VadVars) (frames : List FrameIn) :
    VadVars × List SpeechSegment :=
  frames.foldl drain_step (st, [])

/-- A published segment is well-formed: its duration field is the difference
of its end and start timestamps and reaches the 100 ms minimum. -/
def SegOk (seg : SpeechSegment) : Prop :=
  seg.duration_ms = seg.end_ms - seg.start_ms ∧
  VAD_MIN_SPEECH_MS ≤ seg.duration_ms ∧
  seg.start_ms ≤ seg.end_ms

/-- Frame timestamps are monotone, at least `t`, and below the `uint32_t`
wrap. -/
def chainB : Nat → List FrameIn → Bool
  | _, [] => true
  | t, f :: fs =>
    (decide (t ≤ f.timestamp_ms ∧ f.timestamp_ms < 2 ^ 32)) && chainB f.timestamp_ms fs

/-- Invariant of the drained VAD loop: the segment buffer is empty and, while
in Speech, the pending segment start is a past (un-wrapped) timestamp. -/
def VadTimeInv (st : VadVars) (t : Nat) : Prop :=
  st.segment_ready = false ∧
  (st.current_state = VADState.speech →
    st.pending_segment.start_ms ≤ t ∧ st.pending_segment.start_ms < 2 ^ 32)

/-! ## Turn detector and main loop (main.cpp)

The BLE transport and feedback modules are external collaborators;
`ble_send_event` is modelled as always succeeding (its return drives only the
session event counter), and `feedback_trigger` calls are omitted as pure
outputs. -/

/-- `RESPONSE_THRESHOLD_MS` from main.cpp. -/
def RESPONSE_THRESHOLD_MS : Nat := 3000

/-- `MISSED_OPP_THRESHOLD_MS` from main.cpp. -/
def MISSED_OPP_THRESHOLD_MS : Nat := 5000

/-- `BLEEventType` from ble_service.h (`ret` stands for `BLE_EVENT_RETURN`). -/
inductive BLEEventType where
  | serve
  | ret
  | missed_opportunity
deriving DecidableEq, Repr

/-- `BLEEvent` from ble_service.h. -/
structure BLEEvent where
  type : BLEEventType
  timestamp : ℚ
  confidence : ℚ
  pitch_hz : ℚ
  response_latency : ℚ
  silence_duration : ℚ
deriving DecidableEq, Repr

/-- The session / turn-taking statics of main.cpp. -/
structure TurnVars where
  session_active : Bool
  session_start_time : Nat
  session_event_count : Nat
  last_was_speaking : Bool
  last_speech_end_time : Nat
  waiting_for_response : Bool
  child_speech_time : Nat
  last_was_child : Bool
deriving DecidableEq, Repr

/-- Static initialisation of main.cpp's globals. -/
def turn_init : TurnVars :=
  { session_active := false
    session_start_time := 0
    session_event_count := 0
    last_was_speaking := false
    last_speech_end_time := 0
    waiting_for_response := false
    child_speech_time := 0
    last_was_child := false }

/-- `get_session_timestamp` (seconds since session start). -/
def get_session_timestamp (tv : TurnVars) (now : Nat) : ℚ :=
  if tv.session_active = false ∨ tv.session_start_time = 0 then 0
  else (u32_sub now tv.session_start_time : ℚ) / 1000

/-- `send_event`: build the BLE event record and bump the session event
counter (the transport send is external and modelled as succeeding). -/
def send_event (tv : TurnVars) (now : Nat) (type : BLEEventType) (extra : ℚ) :
    TurnVars × BLEEvent :=
  let event : BLEEvent :=
    { type := type
      timestamp := get_session_timestamp tv now
      confidence := 8 / 10
      pitch_hz := 0
      response_latency := if type = BLEEventType.ret then extra else 0
      silence_duration := if type = BLEEventType.missed_opportunity then extra else 0 }
  ({ tv with session_event_count := tv.session_event_count + 1 }, event)

/-- `process_speech_segment` from main.cpp: classify by the energy heuristic
(average energy below 0.1 means child), emit Serve / Return, and maintain the
waiting-for-response state.  Returns the new state and the emitted events. -/
def process_speech_segment (tv : TurnVars) (seg : SpeechSegment) (now : Nat) :
    TurnVars × List BLEEvent :=
  let is_child : Bool := decide (seg.avg_energy < 1 / 10)
  if is_child then
    let se := send_event tv now BLEEventType.serve 0
    ({ se.1 with
        waiting_for_response := true
        child_speech_time := seg.end_ms
        last_was_child := true }, [se.2])
  else if tv.waiting_for_response then
    let response_time := u32_sub seg.start_ms tv.child_speech_time
    if response_time ≤ RESPONSE_THRESHOLD_MS then
      let se := send_event tv now BLEEventType.ret ((response_time : ℚ) / 1000)
      ({ se.1 with waiting_for_response := false, last_was_child := false }, [se.2])
    else
      ({ tv with waiting_for_response := false, last_was_child := false }, [])
  else (tv, [])

/-- `check_missed_opportunity` from main.cpp. -/
def check_missed_opportunity (tv : TurnVars) (vadSt : VadVars) (now : Nat) :
    TurnVars × List BLEEvent :=
  if tv.waiting_for_response = false then (tv, [])
  else
    let silence := vad_silence_duration vadSt now
    if MISSED_OPP_THRESHOLD_MS ≤ silence then
      let se := send_event tv now BLEEventType.missed_opportunity ((silence : ℚ) / 1000)
      ({ se.1 with waiting_for_response := false, last_was_child := false }, [se.2])
    else (tv, [])

/-- The whole firmware state driven by main.cpp. -/
structure SysState where
  turn : TurnVars
  vad : VadVars
  audio : AudioState
  audio_running : Bool

/-- `on_session_control` from main.cpp.  `audio_start` / `audio_stop` only
toggle the running flag (capture is assumed initialised); neither touches the
ring buffer contents or cursors. -/
def on_session_control (sys : SysState) (start : Bool) (now : Nat) : SysState :=
  if start = true ∧ sys.turn.session_active = false then
    { sys with
        turn := { sys.turn with
          session_active := true
          session_start_time := now
          session_event_count := 0
          last_was_speaking := false
          last_speech_end_time := 0
          waiting_for_response := false
          last_was_child := false }
        vad := vad_reset sys.vad now
        audio_running := true }
  else if start = false ∧ sys.turn.session_active = true then
    { sys with
        turn := { sys.turn with session_active := false }
        audio_running := false }
  else sys

/-- The session-active part of one `loop()` iteration at wall-clock `now`:
if a frame was obtained this tick it is run through the VAD, a freshly closed
segment is processed, and the speaking-transition bookkeeping runs; then —
with or without a frame — `check_missed_opportunity` is evaluated.  Returns
the new state and the events emitted this tick, in order. -/
def loop_tick (sys : SysState) (now : Nat) (frameOpt : Option FrameIn) :
    SysState × List BLEEvent :=
  if sys.turn.session_active = true then
    let step :=
      match frameOpt with
      | none => (sys, ([] : List BLEEvent))
      | some f =>
        let vr := vad_process sys.vad (some f)
        let gs := vad_get_segment vr.1
        let ps :=
          match gs.1 with
          | some seg => process_speech_segment sys.turn seg now
          | none => (sys.turn, ([] : List BLEEvent))
        let tv2 :=
          if vr.2.is_speech = true ∧ ps.1.last_was_speaking = false then ps.1
          else if vr.2.is_speech = false ∧ ps.1.last_was_speaking = true then
            { ps.1 with last_speech_end_time := now }
          else ps.1
        ({ sys with vad := gs.2,
                    turn := { tv2 with last_was_speaking := vr.2.is_speech } }, ps.2)
    let mo := check_missed_opportunity step.1.turn step.1.vad now
    ({ step.1 with turn := mo.1 }, step.2 ++ mo.2)
  else (sys, [])

/-- A fresh system right after `setup()` ran at time 0: statics initialised,
adaptive VAD enabled (`vad_set_adaptive(true)`), capture not yet started. -/
def sys_setup : SysState :=
  { turn := turn_init
    vad := { vad_init 0 with adaptive_enabled := true }
    audio := audio_init_state
    audio_running := false }

/-- A start command at t = 0, one audible frame at t = 30 (energy 0.1 —
which updates the adaptive noise floor while the VAD is still in Silence), a
stop at t = 500 and a restart at t = 1000. -/
def restart_demo : SysState :=
  on_session_control
    (on_session_control
      { on_session_control sys_setup true 0 with
          vad := (vad_process (on_session_control sys_setup true 0).vad
            (some { valid := true, timestamp_ms := 30,
                    energy := 1 / 10, zcr := 1 / 5 })).1 }
      false 500)
    true 1000

/-! ## YIN pitch estimator (pitch_detector.cpp)

Float arithmetic is modelled exactly over the rationals.  The RMS silence
pre-check `sqrt(energy/count)/32768 < 0.01` is embedded as the equivalent
squared comparison `energy/count < (32768/100)^2` (both sides of the original
are nonnegative, so the order is preserved). -/

/-- `PITCH_MIN_HZ` from pitch_detector.h. -/
def PITCH_MIN_HZ : Nat := 75

/-- `PITCH_MAX_HZ` from pitch_detector.h. -/
def PITCH_MAX_HZ : Nat := 500

/-- `PITCH_CHILD_THRESHOLD_HZ` from pitch_detector.h. -/
def PITCH_CHILD_THRESHOLD_HZ : ℚ := 280

/-- `YIN_THRESHOLD` from pitch_detector.h (0.15). -/
def YIN_THRESHOLD : ℚ := 15 / 100

/-- `SpeakerType` from pitch_detector.h. -/
inductive SpeakerType where
  | unknown
  | adult
  | child
deriving DecidableEq, Repr

/-- `PitchResult` from pitch_detector.h. -/
structure PitchResult where
  valid : Bool
  pitch_hz : ℚ
  confidence : ℚ
  speaker : SpeakerType
deriving DecidableEq, Repr

/-- `pitch_classify`. -/
def pitch_classify (pitch_hz : ℚ) : SpeakerType :=
  if pitch_hz ≤ 0 then SpeakerType.unknown
  else if PITCH_CHILD_THRESHOLD_HZ ≤ pitch_hz then SpeakerType.child
  else SpeakerType.adult

/-- `yin_difference` (YIN step 2): d(0) = 0 and, for lags in [1, tau_max),
the sum of squared differences over the overlap window of length
count - tau_max.  The diff buffer is modelled as a total function on lags;
entries at or beyond `tau_max` are never written by this step. -/
def yin_difference (samples : List Int) (tau_max : Nat) : Nat → ℚ :=
  fun tau =>
    if tau = 0 then 0
    else if tau < tau_max then
      ((List.range (samples.length - tau_max)).map
        (fun j => ((samples.getD j 0 - samples.getD (j + tau) 0 : ℤ) : ℚ) ^ 2)).sum
    else 0

/-- `yin_cumulative_mean` (YIN step 3): d'(0) = 1;
d'(tau) = d(tau) * tau / sum(d(1..tau)), forced to 1 when the running sum is
not positive.  The in-place loop reads only original values at and beyond
the current lag, so this functional form is exact. -/
def yin_cumulative_mean (d : Nat → ℚ) (tau_max : Nat) : Nat → ℚ :=
  fun tau =>
    if tau = 0 then 1
    else if tau < tau_max then
      let rs := ((List.range tau).map (fun k => d (k + 1))).sum
      if 0 < rs then d tau * tau / rs else 1
    else d tau

/-- The strictly-smaller-update minimum scan of the fallback loop in
`yin_absolute_threshold` (so the first lag attaining the minimum wins). -/
def minLoop (d : Nat → ℚ) : List Nat → Nat × ℚ → Nat × ℚ
  | [], best => best
  | tau :: rest, best =>
    if d tau < best.2 then minLoop d rest (tau, d tau) else minLoop d rest best

/-- `yin_absolute_threshold` (YIN step 4): scan lags in [tau_min, tau_max-1)
for the first value below the threshold that is a local minimum (strictly
less than its left neighbour, no greater than its right neighbour); if none
qualifies, fall back to the global minimum over [tau_min, tau_max), accepted
only if below 0.5; `none` models the C return value -1 (unvoiced). -/
def yin_absolute_threshold (d : Nat → ℚ) (tau_min tau_max : Nat)
    (threshold : ℚ) : Option Nat :=
  match (List.range' tau_min (tau_max - 1 - tau_min)).find?
      (fun tau => decide (d tau < threshold ∧ d tau < d (tau - 1) ∧ d tau ≤ d (tau + 1))) with
  | some tau => some tau
  | none =>
    let mt := minLoop d (List.range' (tau_min + 1) (tau_max - (tau_min + 1)))
      (tau_min, d tau_min)
    if mt.2 < 1 / 2 then some mt.1 else none

/-- `yin_parabolic_interpolation` (YIN step 5); at either array edge the
integer lag is returned unrefined. -/
def yin_parabolic_interpolation (d : Nat → ℚ) (tau : Nat) (tau_max : Nat) : ℚ :=
  if tau = 0 ∨ tau_max - 1 ≤ tau then (tau : ℚ)
  else
    let s0 := d (tau - 1)
    let s1 := d tau
    let s2 := d (tau + 1)
    (tau : ℚ) + (s2 - s0) / (2 * (2 * s1 - s2 - s0 + 1 / 10 ^ 10))

/-- `pitch_estimate` from pitch_detector.cpp. -/
def pitch_estimate (samples : List Int) (sample_rate : Nat) : PitchResult :=
  let invalid : PitchResult :=
    { valid := false, pitch_hz := 0, confidence := 0, speaker := SpeakerType.unknown }
  let tau_min := sample_rate / PITCH_MAX_HZ
  let tau_max0 := sample_rate / PITCH_MIN_HZ
  let tau_max := if 255 < tau_max0 then 255 else tau_max0
  if samples.length < tau_max * 2 then invalid
  else
    let energy : ℤ := (samples.map (fun s => s * s)).sum
    if (energy : ℚ) / samples.length < (32768 / 100) ^ 2 then invalid
    else
      let dn := yin_cumulative_mean (yin_difference samples tau_max) tau_max
      match yin_absolute_threshold dn tau_min tau_max YIN_THRESHOLD with
      | none => invalid
      | some tau =>
        let tau_refined := yin_parabolic_interpolation dn tau tau_max
        if tau_refined ≤ 0 then invalid
        else
          { valid := true
            pitch_hz := (sample_rate : ℚ) / tau_refined
            confidence := 1 - dn tau
            speaker := pitch_classify ((sample_rate : ℚ) / tau_refined) }

/-- A normalised-difference array separating the claimed and actual
behaviour of the lag scan: values 1, 0.01, 0.02, 0.2, 0.05, 1 at lags
0..5 (and 1 beyond). -/
def yin_cex_diff : Nat → ℚ :=
  fun tau => [1, 1 / 100, 2 / 100, 2 / 10, 5 / 100, 1].getD tau 1

/-! ## Theorems -/

theorem audio_init_inv : AudioInv audio_init_state := by
  constructor <;> simp [audio_init_state, AUDIO_BUFFER_SIZE]

theorem audio_frames_available_eq_mod (st : AudioState) (h : AudioInv st) :
    audio_frames_available st =
      (AUDIO_BUFFER_SIZE + st.write_index - st.read_index) % AUDIO_BUFFER_SIZE := by
  obtain ⟨hw, hr⟩ := h
  unfold audio_frames_available AUDIO_BUFFER_SIZE at *
  split <;> omega

theorem map_range_congr {α : Type} (n : Nat) (f g : Nat → α)
    (h : ∀ i, i < n → f i = g i) :
    (List.range n).map f = (List.range n).map g := by
  apply List.map_congr_left
  intro i hi
  exact h i (List.mem_range.mp hi)

theorem drop_map_range {α : Type} (n m : Nat) (f : Nat → α) :
    ((List.range n).map f).drop m = (List.range (n - m)).map (fun i => f (m + i)) := by
  apply List.ext_getElem
  · simp
  · intro i h1 h2
    simp at h1 h2
    simp [List.getElem_drop]

theorem push_sample_inv (st : AudioState) (s : Int) (h : AudioInv st) :
    AudioInv (push_sample st s) := by
  obtain ⟨hw, hr⟩ := h
  unfold push_sample AudioInv AUDIO_BUFFER_SIZE at *
  dsimp only
  split <;> constructor <;> dsimp only <;> omega

theorem push_sample_unread (st : AudioState) (s : Int) (h : AudioInv st) :
    unread (push_sample st s) =
      (if audio_frames_available st = AUDIO_BUFFER_SIZE - 1 then (unread st).drop 1
       else unread st) ++ [s] := by
  obtain ⟨buf, w, r⟩ := st
  obtain ⟨hw, hr⟩ := h
  simp only [AUDIO_BUFFER_SIZE] at hw hr
  have hamod : audio_frames_available ⟨buf, w, r⟩ = (160000 + w - r) % 160000 := by
    have := audio_frames_available_eq_mod ⟨buf, w, r⟩ ⟨hw, hr⟩
    simpa [AUDIO_BUFFER_SIZE] using this
  by_cases hcatch : (w + 1) % 160000 = r
  · -- the write cursor catches the read cursor: overwrite-oldest
    have hpush : push_sample ⟨buf, w, r⟩ s =
        ⟨fun i => if i = w then s else buf i, (w + 1) % 160000, (r + 1) % 160000⟩ := by
      unfold push_sample AUDIO_BUFFER_SIZE
      dsimp only
      rw [if_pos hcatch]
    have hfull : audio_frames_available ⟨buf, w, r⟩ = AUDIO_BUFFER_SIZE - 1 := by
      simp only [AUDIO_BUFFER_SIZE]
      omega
    have ha' : audio_frames_available
        ⟨fun i => if i = w then s else buf i, (w + 1) % 160000, (r + 1) % 160000⟩
        = 159998 + 1 := by
      unfold audio_frames_available AUDIO_BUFFER_SIZE
      dsimp only
      split <;> omega
    rw [if_pos hfull]
    unfold unread
    rw [hpush]
    dsimp only
    rw [ha']
    rw [hfull]
    simp only [AUDIO_BUFFER_SIZE]
    rw [show (160000 - 1 : Nat) = 159998 + 1 by omega]
    rw [drop_map_range]
    rw [show (159998 + 1 - 1 : Nat) = 159998 by omega]
    rw [List.range_succ, List.map_append]
    generalize hN : (159998 : Nat) = N
    congr 1
    · apply map_range_congr
      intro i hi
      have hne : ((r + 1) % 160000 + i) % 160000 ≠ w := by omega
      rw [if_neg hne]
      congr 1
      omega
    · have heq : ((r + 1) % 160000 + N) % 160000 = w := by omega
      simp only [AUDIO_BUFFER_SIZE, List.map_cons, List.map_nil]
      rw [heq, if_pos rfl]
  · -- normal append
    have hpush : push_sample ⟨buf, w, r⟩ s =
        ⟨fun i => if i = w then s else buf i, (w + 1) % 160000, r⟩ := by
      unfold push_sample AUDIO_BUFFER_SIZE
      dsimp only
      rw [if_neg hcatch]
    have hnotfull : ¬ audio_frames_available ⟨buf, w, r⟩ = AUDIO_BUFFER_SIZE - 1 := by
      simp only [AUDIO_BUFFER_SIZE]
      omega
    have ha' : audio_frames_available
        ⟨fun i => if i = w then s else buf i, (w + 1) % 160000, r⟩
        = audio_frames_available ⟨buf, w, r⟩ + 1 := by
      unfold audio_frames_available AUDIO_BUFFER_SIZE
      dsimp only
      split <;> split <;> omega
    rw [if_neg hnotfull]
    unfold unread
    rw [hpush]
    dsimp only
    rw [ha']
    rw [List.range_succ, List.map_append]
    congr 1
    · apply map_range_congr
      intro i hi
      have hne : (r + i) % 160000 ≠ w := by omega
      simp only [AUDIO_BUFFER_SIZE]
      rw [if_neg hne]
    · have heq : (r + audio_frames_available ⟨buf, w, r⟩) % 160000 = w := by omega
      simp only [AUDIO_BUFFER_SIZE, List.map_cons, List.map_nil]
      rw [heq, if_pos rfl]

theorem audio_get_frame_some (st : AudioState) (hinv : AudioInv st)
    (h : AUDIO_FRAME_SAMPLES ≤ audio_frames_available st) :
    (audio_get_frame st).1 = some ((unread st).take AUDIO_FRAME_SAMPLES) ∧
    unread (audio_get_frame st).2 = (unread st).drop AUDIO_FRAME_SAMPLES ∧
    AudioInv (audio_get_frame st).2 := by
  obtain ⟨buf, w, r⟩ := st
  obtain ⟨hw, hr⟩ := hinv
  simp only [AUDIO_BUFFER_SIZE] at hw hr
  have hamod : audio_frames_available ⟨buf, w, r⟩ = (160000 + w - r) % 160000 := by
    have := audio_frames_available_eq_mod ⟨buf, w, r⟩
      ⟨by simpa [AUDIO_BUFFER_SIZE] using hw, by simpa [AUDIO_BUFFER_SIZE] using hr⟩
    simpa [AUDIO_BUFFER_SIZE] using this
  have h480 : (480 : Nat) ≤ audio_frames_available ⟨buf, w, r⟩ := by
    simpa [AUDIO_FRAME_SAMPLES] using h
  have hgf : audio_get_frame ⟨buf, w, r⟩ =
      (some ((List.range 480).map (fun i => buf ((r + i) % 160000))),
       ⟨buf, w, (r + 480) % 160000⟩) := by
    unfold audio_get_frame AUDIO_FRAME_SAMPLES AUDIO_BUFFER_SIZE
    dsimp only
    rw [if_neg (by omega)]
  have hinv2 : AudioInv ⟨buf, w, (r + 480) % 160000⟩ := by
    constructor
    · simpa [AUDIO_BUFFER_SIZE] using hw
    · simp only [AUDIO_BUFFER_SIZE]
      omega
  have hamod2 : audio_frames_available ⟨buf, w, (r + 480) % 160000⟩
      = (160000 + w - (r + 480) % 160000) % 160000 := by
    have := audio_frames_available_eq_mod _ hinv2
    simpa [AUDIO_BUFFER_SIZE] using this
  have ha2 : audio_frames_available ⟨buf, w, (r + 480) % 160000⟩
      = audio_frames_available ⟨buf, w, r⟩ - 480 := by
    rw [hamod2, hamod]
    omega
  rw [hgf]
  refine ⟨?_, ?_, hinv2⟩
  · dsimp only
    unfold unread
    rw [← List.map_take, List.take_range, Nat.min_eq_left h]
    simp only [AUDIO_FRAME_SAMPLES, AUDIO_BUFFER_SIZE]
  · dsimp only
    unfold unread
    dsimp only
    rw [ha2]
    simp only [AUDIO_FRAME_SAMPLES, AUDIO_BUFFER_SIZE]
    rw [drop_map_range]
    set_option maxRecDepth 4000 in
    apply map_range_congr
    intro i hi
    congr 1
    omega

/-- C9: the ring buffer invariant and FIFO order.  `audio_frames_available`
always equals the cursor difference mod capacity; a push appends the new
sample to the queue of unread samples, discarding exactly the oldest one when
the write cursor catches the read cursor (which is then advanced by one); and
`audio_get_frame` returns exactly the first `AUDIO_FRAME_SAMPLES` unread
samples in push order and drops them, so no sample is duplicated or skipped
except those discarded by the overflow policy. -/
theorem audio_ring_buffer_order (st : AudioState) (s : Int) (hinv : AudioInv st) :
    audio_frames_available st =
      (AUDIO_BUFFER_SIZE + st.write_index - st.read_index) % AUDIO_BUFFER_SIZE ∧
    AudioInv (push_sample st s) ∧
    unread (push_sample st s) =
      (if audio_frames_available st = AUDIO_BUFFER_SIZE - 1 then (unread st).drop 1
       else unread st) ++ [s] ∧
    ((push_sample st s).write_index = st.read_index →
      (push_sample st s).read_index = (st.read_index + 1) % AUDIO_BUFFER_SIZE) ∧
    (AUDIO_FRAME_SAMPLES ≤ audio_frames_available st →
      (audio_get_frame st).1 = some ((unread st).take AUDIO_FRAME_SAMPLES) ∧
      unread (audio_get_frame st).2 = (unread st).drop AUDIO_FRAME_SAMPLES) ∧
    (audio_frames_available st < AUDIO_FRAME_SAMPLES → audio_get_frame st = (none, st)) := by
  refine ⟨audio_frames_available_eq_mod st hinv, push_sample_inv st s hinv,
          push_sample_unread st s hinv, ?_, ?_, ?_⟩
  · intro hcatch
    obtain ⟨buf, w, r⟩ := st
    unfold push_sample at hcatch ⊢
    dsimp only at hcatch ⊢
    split at hcatch
    · next hc => rw [if_pos hc]
    · next hc =>
      dsimp only at hcatch
      exact absurd hcatch hc
  · intro h
    exact ⟨(audio_get_frame_some st hinv h).1, (audio_get_frame_some st hinv h).2.1⟩
  · intro h
    unfold audio_get_frame
    rw [if_pos h]

theorem audio_ring_buffer_order_witness :
    AudioInv audio_init_state ∧
    unread (push_sample audio_init_state 7) =
      (if audio_frames_available audio_init_state = AUDIO_BUFFER_SIZE - 1
       then (unread audio_init_state).drop 1 else unread audio_init_state) ++ [7] :=
  ⟨by decide, (audio_ring_buffer_order audio_init_state 7 (by decide)).2.2.1⟩

/-- C2 (amended): `audio_frames_available` returns the count of unread
samples currently buffered (the function counts samples, not whole frames);
this count never exceeds `AUDIO_BUFFER_SIZE - 1`, and the count of whole
frames currently buffered, `audio_frames_available / AUDIO_FRAME_SAMPLES`,
never exceeds `AUDIO_BUFFER_SIZE / AUDIO_FRAME_SAMPLES`. -/
theorem audio_frames_available_counts_samples (st : AudioState) (hinv : AudioInv st) :
    audio_frames_available st = (unread st).length ∧
    audio_frames_available st ≤ AUDIO_BUFFER_SIZE - 1 ∧
    audio_frames_available st / AUDIO_FRAME_SAMPLES ≤
      AUDIO_BUFFER_SIZE / AUDIO_FRAME_SAMPLES := by
  obtain ⟨hw, hr⟩ := hinv
  refine ⟨by simp [unread], ?_, ?_⟩
  · unfold audio_frames_available AUDIO_BUFFER_SIZE at *
    split <;> omega
  · apply Nat.div_le_div_right
    unfold audio_frames_available AUDIO_BUFFER_SIZE at *
    split <;> omega

theorem audio_frames_available_counts_samples_witness :
    AudioInv audio_init_state ∧
    audio_frames_available audio_init_state = (unread audio_init_state).length :=
  ⟨by decide, (audio_frames_available_counts_samples audio_init_state (by decide)).1⟩

/-- Pushing into a fresh (read cursor 0) buffer without wrap-around simply
advances the write cursor by the number of samples pushed. -/
theorem audio_process_fresh (l : List Int) : ∀ (st : AudioState),
    st.read_index = 0 → st.write_index + l.length < AUDIO_BUFFER_SIZE →
    (audio_process st l).write_index = st.write_index + l.length ∧
    (audio_process st l).read_index = 0 := by
  induction l with
  | nil =>
    intro st h1 h2
    simp [audio_process, h1]
  | cons a t ih =>
    intro st h1 h2
    have hlen : (a :: t).length = t.length + 1 := by simp
    have hwlt : st.write_index + 1 < AUDIO_BUFFER_SIZE := by
      simp only [AUDIO_BUFFER_SIZE] at h2 ⊢
      omega
    have hmod : (st.write_index + 1) % AUDIO_BUFFER_SIZE = st.write_index + 1 :=
      Nat.mod_eq_of_lt hwlt
    have hne : (st.write_index + 1) % AUDIO_BUFFER_SIZE ≠ st.read_index := by
      rw [hmod, h1]
      omega
    have hpush : push_sample st a =
        ⟨fun i => if i = st.write_index then a else st.buffer i,
         st.write_index + 1, st.read_index⟩ := by
      unfold push_sample
      dsimp only
      rw [if_neg hne, hmod]
    have hstep : audio_process st (a :: t) = audio_process (push_sample st a) t := by
      simp [audio_process]
    have hrec := ih (push_sample st a)
      (by rw [hpush]; exact h1)
      (by rw [hpush]; simp only [AUDIO_BUFFER_SIZE] at h2 ⊢; simp at h2; omega)
    rw [hstep, hpush]
    rw [hpush] at hrec
    dsimp only at hrec
    refine ⟨?_, hrec.2⟩
    rw [hrec.1, hlen]
    omega

/-- C2 counterexample: after pushing exactly 480 samples into a fresh buffer,
exactly one whole frame (480 samples) is buffered, yet
`audio_frames_available` returns 480 — the sample count, not the frame count
— and 480 exceeds the claimed bound
`AUDIO_BUFFER_SIZE / AUDIO_FRAME_SAMPLES = 333`. -/
theorem audio_frames_available_not_frame_count :
    audio_frames_available (audio_process audio_init_state (List.replicate 480 1)) = 480 ∧
    (unread (audio_process audio_init_state (List.replicate 480 1))).length
      / AUDIO_FRAME_SAMPLES = 1 ∧
    AUDIO_BUFFER_SIZE / AUDIO_FRAME_SAMPLES = 333 ∧
    ¬ (480 : Nat) ≤ AUDIO_BUFFER_SIZE / AUDIO_FRAME_SAMPLES := by
  obtain ⟨hwr, hrd⟩ := audio_process_fresh (List.replicate 480 1) audio_init_state
    (by simp [audio_init_state])
    (by simp only [audio_init_state, AUDIO_BUFFER_SIZE, List.length_replicate]; omega)
  have h1 : (audio_process audio_init_state (List.replicate 480 1)).write_index
      = 480 := by
    rw [hwr, List.length_replicate]
    decide
  have havail : audio_frames_available
      (audio_process audio_init_state (List.replicate 480 1)) = 480 := by
    unfold audio_frames_available
    rw [hrd, h1]
    decide
  refine ⟨havail, ?_, by decide, by decide⟩
  have hlen2 : (unread (audio_process audio_init_state (List.replicate 480 1))).length
      = 480 := by
    unfold unread
    rw [List.length_map, List.length_range, havail]
  rw [hlen2]
  decide

theorem u32_sub_of_le (a b : Nat) (h1 : b ≤ a) (h2 : a < 2 ^ 32) :
    u32_sub a b = a - b := by
  unfold u32_sub
  have hp : (2 : Nat) ^ 32 = 4294967296 := by norm_num
  rw [hp] at h2 ⊢
  omega

theorem update_noise_floor_fields (st : VadVars) (e : ℚ) :
    (update_noise_floor st e).current_state = st.current_state ∧
    (update_noise_floor st e).segment_ready = st.segment_ready ∧
    (update_noise_floor st e).pending_segment = st.pending_segment ∧
    (update_noise_floor st e).state_start_time = st.state_start_time ∧
    (update_noise_floor st e).adaptive_enabled = st.adaptive_enabled := by
  unfold update_noise_floor
  split <;> simp

theorem transition_to_enter_speech (st : VadVars) (now : Nat)
    (h : ¬ st.current_state = VADState.speech) :
    transition_to st VADState.speech now =
      { st with
          pending_segment := { st.pending_segment with start_ms := now }
          segment_energy_sum := 0
          segment_frame_count := 0
          speech_start_time := now
          current_state := VADState.speech
          state_start_time := now } := by
  unfold transition_to
  rw [if_neg h]
  dsimp only
  rw [if_neg h, if_pos rfl]

theorem transition_speech_to_hangover (st : VadVars) (now : Nat)
    (h : st.current_state = VADState.speech) :
    transition_to st VADState.hangover now =
      { st with
          pending_segment :=
            { start_ms := st.pending_segment.start_ms
              end_ms := now
              duration_ms := u32_sub now st.pending_segment.start_ms
              avg_energy :=
                if st.segment_frame_count > 0 then
                  st.segment_energy_sum / st.segment_frame_count
                else 0 }
          segment_ready :=
            if VAD_MIN_SPEECH_MS ≤ u32_sub now st.pending_segment.start_ms then true
            else st.segment_ready
          last_speech_time := now
          current_state := VADState.hangover
          state_start_time := now } := by
  unfold transition_to
  rw [if_neg (show ¬ st.current_state = VADState.hangover from by rw [h]; decide)]
  dsimp only
  rw [if_neg (show ¬ VADState.hangover = VADState.speech from by decide), if_pos h]

theorem transition_hangover_to_silence (st : VadVars) (now : Nat)
    (h : st.current_state = VADState.hangover) :
    transition_to st VADState.silence now =
      { st with current_state := VADState.silence, state_start_time := now } := by
  unfold transition_to
  rw [if_neg (show ¬ st.current_state = VADState.silence from by rw [h]; decide)]
  dsimp only
  rw [if_neg (show ¬ VADState.silence = VADState.speech from by decide),
      if_neg (show ¬ st.current_state = VADState.speech from by rw [h]; decide)]

theorem vad_state_machine_invStep (st : VadVars) (e : ℚ) (b : Bool) (now t : Nat)
    (hready : st.segment_ready = false)
    (hsp : st.current_state = VADState.speech →
      st.pending_segment.start_ms ≤ t ∧ st.pending_segment.start_ms < 2 ^ 32)
    (htn : t ≤ now) (hnow : now < 2 ^ 32) :
    ((vad_state_machine st e b now).segment_ready = false ∨
     ((vad_state_machine st e b now).segment_ready = true ∧
      SegOk (vad_state_machine st e b now).pending_segment)) ∧
    ((vad_state_machine st e b now).current_state = VADState.speech →
      (vad_state_machine st e b now).pending_segment.start_ms ≤ now ∧
      (vad_state_machine st e b now).pending_segment.start_ms < 2 ^ 32) := by
  unfold vad_state_machine
  split
  · next hcs =>
    by_cases hb : b = true
    · rw [if_pos hb, transition_to_enter_speech st now (by rw [hcs]; decide)]
      exact ⟨Or.inl hready, fun _ => ⟨le_refl now, hnow⟩⟩
    · rw [if_neg hb]
      refine ⟨Or.inl hready, fun hc => ?_⟩
      rw [hcs] at hc
      exact absurd hc (by decide)
  · next hcs =>
    dsimp only
    by_cases hb : b = true
    · rw [if_neg (show ¬ ¬ b = true from not_not_intro hb)]
      refine ⟨Or.inl hready, fun _ => ?_⟩
      exact ⟨le_trans (hsp hcs).1 htn, (hsp hcs).2⟩
    · rw [if_pos hb,
          transition_speech_to_hangover
            { st with segment_energy_sum := st.segment_energy_sum + e,
                      segment_frame_count := st.segment_frame_count + 1 } now hcs]
      dsimp only
      obtain ⟨hle, hlt2⟩ := hsp hcs
      have hd : u32_sub now st.pending_segment.start_ms
          = now - st.pending_segment.start_ms :=
        u32_sub_of_le now _ (le_trans hle htn) hnow
      constructor
      · by_cases hdur : VAD_MIN_SPEECH_MS ≤ u32_sub now st.pending_segment.start_ms
        · refine Or.inr ⟨if_pos hdur, ?_, ?_, ?_⟩
          · exact hd
          · exact hdur
          · exact le_trans hle htn
        · rw [if_neg hdur]
          exact Or.inl hready
      · intro hc
        simp at hc
  · next hcs =>
    by_cases hb : b = true
    · rw [if_pos hb, transition_to_enter_speech st now (by rw [hcs]; decide)]
      exact ⟨Or.inl hready, fun _ => ⟨le_refl now, hnow⟩⟩
    · rw [if_neg hb]
      by_cases hel : VAD_HANGOVER_MS < u32_sub now st.state_start_time
      · rw [if_pos hel, transition_hangover_to_silence st now hcs]
        refine ⟨Or.inl hready, fun hc => ?_⟩
        simp at hc
      · rw [if_neg hel]
        refine ⟨Or.inl hready, fun hc => ?_⟩
        rw [hcs] at hc
        exact absurd hc (by decide)

theorem vad_process_none_state (st : VadVars) :
    (vad_process st none).1 = st := rfl

theorem vad_process_some_state (st : VadVars) (f : FrameIn) :
    (vad_process st (some f)).1 =
      if f.valid = false then st
      else
        vad_state_machine
          (if st.adaptive_enabled then update_noise_floor st f.energy else st)
          f.energy
          (vad_decide_speech
            (get_effective_threshold
              (if st.adaptive_enabled then update_noise_floor st f.energy else st))
            f.energy f.zcr)
          f.timestamp_ms := by
  unfold vad_process
  dsimp only
  by_cases hv : f.valid = false
  · rw [if_pos hv, if_pos hv]
  · rw [if_neg hv, if_neg hv]

theorem drain_step_ok (st : VadVars) (acc : List SpeechSegment) (f : FrameIn) (t : Nat)
    (hInv : VadTimeInv st t) (hts : t ≤ f.timestamp_ms) (hlt : f.timestamp_ms < 2 ^ 32) :
    VadTimeInv (drain_step (st, acc) f).1 f.timestamp_ms ∧
    ∀ seg ∈ (drain_step (st, acc) f).2, seg ∈ acc ∨ SegOk seg := by
  obtain ⟨hready, hsp⟩ := hInv
  unfold drain_step
  dsimp only
  rw [vad_process_some_state]
  by_cases hv : f.valid = false
  · rw [if_pos hv]
    unfold vad_get_segment
    rw [if_neg (show ¬ st.segment_ready = true from by rw [hready]; decide)]
    dsimp only
    refine ⟨⟨hready, fun hc => ⟨le_trans (hsp hc).1 hts, (hsp hc).2⟩⟩, ?_⟩
    intro seg hseg
    exact Or.inl (by simpa using hseg)
  · rw [if_neg hv]
    have hfields := update_noise_floor_fields st f.energy
    set st1 := if st.adaptive_enabled then update_noise_floor st f.energy else st
      with hst1
    have h1ready : st1.segment_ready = false := by
      rw [hst1]
      split
      · rw [hfields.2.1]
        exact hready
      · exact hready
    have h1cs : st1.current_state = st.current_state := by
      rw [hst1]
      split
      · exact hfields.1
      · rfl
    have h1pend : st1.pending_segment = st.pending_segment := by
      rw [hst1]
      split
      · exact hfields.2.2.1
      · rfl
    have hm := vad_state_machine_invStep st1 f.energy
      (vad_decide_speech (get_effective_threshold st1) f.energy f.zcr)
      f.timestamp_ms t h1ready
      (fun hc => by
        rw [h1pend]
        exact hsp (by rw [← h1cs]; exact hc))
      hts hlt
    set st2 := vad_state_machine st1 f.energy
      (vad_decide_speech (get_effective_threshold st1) f.energy f.zcr)
      f.timestamp_ms with hst2
    obtain ⟨hdisj, hsp2⟩ := hm
    rcases hdisj with h0 | ⟨h1, hok⟩
    · unfold vad_get_segment
      rw [if_neg (show ¬ st2.segment_ready = true from by rw [h0]; decide)]
      dsimp only
      refine ⟨⟨h0, hsp2⟩, ?_⟩
      intro seg hseg
      exact Or.inl (by simpa using hseg)
    · unfold vad_get_segment
      rw [if_pos h1]
      dsimp only
      refine ⟨⟨rfl, fun hc => hsp2 hc⟩, ?_⟩
      intro seg hseg
      simp only [Option.toList_some, List.mem_append, List.mem_singleton] at hseg
      rcases hseg with h | h
      · exact Or.inl h
      · refine Or.inr ?_
        rw [h]
        exact hok

theorem vadRunDrained_go (frames : List FrameIn) :
    ∀ (st : VadVars) (acc : List SpeechSegment) (t : Nat),
      VadTimeInv st t → chainB t frames = true → (∀ seg ∈ acc, SegOk seg) →
      ∀ seg ∈ (frames.foldl drain_step (st, acc)).2, SegOk seg := by
  induction frames with
  | nil =>
    intro st acc t h1 h2 h3
    simpa using h3
  | cons f fs ih =>
    intro st acc t h1 h2 h3
    simp only [List.foldl_cons]
    have hch : (t ≤ f.timestamp_ms ∧ f.timestamp_ms < 2 ^ 32) ∧
        chainB f.timestamp_ms fs = true := by
      have h2' := h2
      unfold chainB at h2'
      simp only [Bool.and_eq_true, decide_eq_true_eq] at h2'
      exact h2'
    have hstep := drain_step_ok st acc f t h1 hch.1.1 hch.1.2
    exact ih (drain_step (st, acc) f).1 (drain_step (st, acc) f).2 f.timestamp_ms
      hstep.1 hch.2 (fun seg hseg => (hstep.2 seg hseg).elim (h3 seg) id)

/-- C8 (amended): in runs where the pending segment buffer is drained via
`vad_get_segment` after every processed frame — which is how `loop()` drives
the VAD — every published speech segment has
`duration_ms = end_ms - start_ms`, at least the 100 ms minimum, and
`start_ms ≤ end_ms`; segments shorter than 100 ms are never published in such
runs.  (Without the per-frame drain the law fails; see the counterexample.) -/
theorem vad_published_segment_law (frames : List FrameIn) (t0 : Nat)
    (hch : chainB t0 frames = true) :
    ∀ seg ∈ (vadRunDrained (vad_init t0) frames).2,
      seg.duration_ms = seg.end_ms - seg.start_ms ∧
      VAD_MIN_SPEECH_MS ≤ seg.duration_ms ∧
      seg.start_ms ≤ seg.end_ms := by
  intro seg hseg
  exact vadRunDrained_go frames (vad_init t0) [] t0
    ⟨rfl, fun hc => by simp [vad_init] at hc⟩ hch (by simp) seg hseg

theorem vad_published_segment_law_witness :
    chainB 0 hangover_frames = true ∧
    ((⟨0, 120, 120, 3 / 20⟩ : SpeechSegment) ∈
      (vadRunDrained (vad_init 0) hangover_frames).2) ∧
    ((120 : Nat) = 120 - 0 ∧ VAD_MIN_SPEECH_MS ≤ 120 ∧ (0 : Nat) ≤ 120) :=
  ⟨by decide, by with_unfolding_all decide,
   vad_published_segment_law hangover_frames 0 (by decide)
     (⟨0, 120, 120, 3 / 20⟩ : SpeechSegment) (by with_unfolding_all decide)⟩

/-- C8 counterexample: with the segment closed at t = 120 left undrained, a
30 ms burst (t = 180 to 210) overwrites the pending segment while the ready
flag is still set, so `vad_get_segment` publishes a segment of duration
30 ms < 100 ms. -/
theorem vad_short_segment_published :
    (vad_get_segment (vadRun (vad_init 0) short_burst_frames)).1 =
      some ⟨180, 210, 30, 0⟩ ∧
    (30 : Nat) < VAD_MIN_SPEECH_MS := by with_unfolding_all decide

/-- C1 (code_bug evidence): a speech run from t = 0 interrupted at t = 120
enters Hangover with the segment already finalised and retrievable
(`segment_ready` is true at the moment Hangover is entered), and when speech
resumes at t = 150 — 30 ms into the 200 ms hangover window — the
eventually-published segment starts at t = 150: the sub-200 ms interruption
closes the first segment instead of one continuous segment spanning it. -/
theorem vad_hangover_entry_publishes :
    (vadRun (vad_init 0) hangover_frames).current_state = VADState.hangover ∧
    (vadRun (vad_init 0) hangover_frames).segment_ready = true ∧
    (vad_get_segment (vadRun (vad_init 0) hangover_frames)).1 =
      some ⟨0, 120, 120, 3 / 20⟩ ∧
    (vad_get_segment (vadRun (vad_init 0) resume_frames)).1 =
      some ⟨150, 270, 120, 3 / 20⟩ := by with_unfolding_all decide

/-- C10: a null frame pointer or a frame with its validity flag cleared
yields a result with `is_speech` false and energy 0 (threshold and state
merely echo the current configuration), and the entire VAD module state is
left untouched. -/
theorem vad_process_invalid_no_mutation (st : VadVars) (f : FrameIn)
    (hf : f.valid = false) :
    vad_process st none =
      (st, { is_speech := false, energy := 0,
             threshold := get_effective_threshold st, state := st.current_state,
             speech_start := 0, speech_duration_ms := 0 }) ∧
    vad_process st (some f) =
      (st, { is_speech := false, energy := 0,
             threshold := get_effective_threshold st, state := st.current_state,
             speech_start := 0, speech_duration_ms := 0 }) := by
  refine ⟨rfl, ?_⟩
  unfold vad_process
  dsimp only
  rw [if_pos hf]

theorem vad_process_invalid_no_mutation_witness :
    (({ valid := false, timestamp_ms := 7, energy := 1, zcr := 0 } : FrameIn).valid
      = false) ∧
    vad_process (vad_init 0)
        (some { valid := false, timestamp_ms := 7, energy := 1, zcr := 0 }) =
      ((vad_init 0),
       { is_speech := false, energy := 0,
         threshold := get_effective_threshold (vad_init 0),
         state := (vad_init 0).current_state,
         speech_start := 0, speech_duration_ms := 0 }) :=
  ⟨rfl, (vad_process_invalid_no_mutation (vad_init 0) _ rfl).2⟩



set_option maxRecDepth 8000 in
/-- C3 counterexample: the adaptive noise floor survives a session restart.
After one audible frame in session one, `noise_floor` is
0.995 * 0.01 + 0.005 * 0.1 = 209/20000; stopping and starting a new session
leaves it there (`vad_reset` never touches it), so it differs from its
initial value 1/100 when the new session begins. -/
theorem session_restart_keeps_stale_state :
    restart_demo.vad.noise_floor.num = 209 ∧
    restart_demo.vad.noise_floor.den = 20000 ∧
    (vad_init 1000).noise_floor.num = 1 ∧
    (vad_init 1000).noise_floor.den = 100 ∧
    ¬ restart_demo.vad.noise_floor = (vad_init 1000).noise_floor := by
  have h1 : restart_demo.vad.noise_floor.num = 209 := by with_unfolding_all decide
  have h2 : restart_demo.vad.noise_floor.den = 20000 := by with_unfolding_all decide
  have h3 : (vad_init 1000).noise_floor.num = 1 := by with_unfolding_all decide
  have h4 : (vad_init 1000).noise_floor.den = 100 := by with_unfolding_all decide
  refine ⟨h1, h2, h3, h4, fun h => ?_⟩
  rw [h, h3] at h1
  exact absurd h1 (by decide)

/-- C3 (amended): on a start command while no session is active, the session
flags, the TurnDetector's waiting-for-response / speaking / child flags and
speech-end time are reset, the VAD state machine, its timestamps, the
segment accumulators and the pending-segment flag are reset, and audio
capture begins — but the adaptive noise floor, the recorded child speech
time, and the ring buffer (including previously buffered unread samples)
are left exactly as the previous session left them. -/
theorem on_session_start_resets (sys : SysState) (now : Nat)
    (h : sys.turn.session_active = false) :
    (on_session_control sys true now).turn.session_active = true ∧
    (on_session_control sys true now).turn.session_start_time = now ∧
    (on_session_control sys true now).turn.session_event_count = 0 ∧
    (on_session_control sys true now).turn.last_was_speaking = false ∧
    (on_session_control sys true now).turn.last_speech_end_time = 0 ∧
    (on_session_control sys true now).turn.waiting_for_response = false ∧
    (on_session_control sys true now).turn.last_was_child = false ∧
    (on_session_control sys true now).turn.child_speech_time
      = sys.turn.child_speech_time ∧
    (on_session_control sys true now).vad.current_state = VADState.silence ∧
    (on_session_control sys true now).vad.state_start_time = now ∧
    (on_session_control sys true now).vad.last_speech_time = 0 ∧
    (on_session_control sys true now).vad.speech_start_time = 0 ∧
    (on_session_control sys true now).vad.segment_ready = false ∧
    (on_session_control sys true now).vad.segment_energy_sum = 0 ∧
    (on_session_control sys true now).vad.segment_frame_count = 0 ∧
    (on_session_control sys true now).vad.noise_floor = sys.vad.noise_floor ∧
    (on_session_control sys true now).audio_running = true ∧
    (on_session_control sys true now).audio = sys.audio := by
  unfold on_session_control
  rw [if_pos ⟨rfl, h⟩]
  exact ⟨rfl, rfl, rfl, rfl, rfl, rfl, rfl, rfl, rfl, rfl, rfl, rfl, rfl, rfl,
         rfl, rfl, rfl, rfl⟩

theorem on_session_start_resets_witness :
    sys_setup.turn.session_active = false ∧
    (on_session_control sys_setup true 5).turn.session_active = true :=
  ⟨rfl, (on_session_start_resets sys_setup 5 rfl).1⟩

/-- C4: when a segment closes, a segment classified Child (average energy
below 0.1) emits exactly one Serve event, records the segment's end time and
sets waiting-for-response; otherwise, if waiting-for-response is set, a
Return carrying latency = segment.start - recordedChildEndTime is emitted
exactly when that latency is at most `RESPONSE_THRESHOLD_MS` (3000 ms), and
waiting-for-response is cleared in both cases; with the flag clear an Adult
segment emits nothing.  Under monotone un-wrapped timestamps the `uint32_t`
latency is the plain difference. -/
theorem process_speech_segment_spec (tv : TurnVars) (seg : SpeechSegment) (now : Nat) :
    (seg.avg_energy < 1 / 10 →
      process_speech_segment tv seg now =
        ({ tv with
            session_event_count := tv.session_event_count + 1
            waiting_for_response := true
            child_speech_time := seg.end_ms
            last_was_child := true },
         [{ type := BLEEventType.serve
            timestamp := get_session_timestamp tv now
            confidence := 8 / 10
            pitch_hz := 0
            response_latency := 0
            silence_duration := 0 }])) ∧
    (¬ seg.avg_energy < 1 / 10 → tv.waiting_for_response = true →
      (u32_sub seg.start_ms tv.child_speech_time ≤ RESPONSE_THRESHOLD_MS →
        process_speech_segment tv seg now =
          ({ tv with
              session_event_count := tv.session_event_count + 1
              waiting_for_response := false
              last_was_child := false },
           [{ type := BLEEventType.ret
              timestamp := get_session_timestamp tv now
              confidence := 8 / 10
              pitch_hz := 0
              response_latency := (u32_sub seg.start_ms tv.child_speech_time : ℚ) / 1000
              silence_duration := 0 }])) ∧
      (¬ u32_sub seg.start_ms tv.child_speech_time ≤ RESPONSE_THRESHOLD_MS →
        process_speech_segment tv seg now =
          ({ tv with waiting_for_response := false, last_was_child := false }, []))) ∧
    (¬ seg.avg_energy < 1 / 10 → tv.waiting_for_response = false →
      process_speech_segment tv seg now = (tv, [])) ∧
    (tv.child_speech_time ≤ seg.start_ms → seg.start_ms < 2 ^ 32 →
      u32_sub seg.start_ms tv.child_speech_time
        = seg.start_ms - tv.child_speech_time) := by
  refine ⟨?_, ?_, ?_, ?_⟩
  · intro hc
    unfold process_speech_segment send_event
    dsimp only
    rw [if_pos (decide_eq_true hc)]
    simp
  · intro hc hw
    constructor
    · intro hlat
      unfold process_speech_segment send_event
      dsimp only
      rw [if_neg (by rw [decide_eq_false hc]; decide), if_pos hw, if_pos hlat]
      simp
    · intro hlat
      unfold process_speech_segment send_event
      dsimp only
      rw [if_neg (by rw [decide_eq_false hc]; decide), if_pos hw, if_neg hlat]
  · intro hc hw
    unfold process_speech_segment send_event
    dsimp only
    rw [if_neg (by rw [decide_eq_false hc]; decide),
        if_neg (by rw [hw]; decide)]
  · intro h1 h2
    exact u32_sub_of_le seg.start_ms tv.child_speech_time h1 h2

theorem process_speech_segment_spec_witness :
    (¬ ((1 : ℚ) / 2 < 1 / 10)) ∧
    process_speech_segment
        { session_active := true, session_start_time := 100, session_event_count := 0,
          last_was_speaking := false, last_speech_end_time := 0,
          waiting_for_response := true, child_speech_time := 1000,
          last_was_child := true }
        { start_ms := 1500, end_ms := 1800, duration_ms := 300, avg_energy := 1 / 2 }
        2000 =
      ({ session_active := true, session_start_time := 100, session_event_count := 1,
         last_was_speaking := false, last_speech_end_time := 0,
         waiting_for_response := false, child_speech_time := 1000,
         last_was_child := false },
       [{ type := BLEEventType.ret
          timestamp := get_session_timestamp
            { session_active := true, session_start_time := 100, session_event_count := 0,
              last_was_speaking := false, last_speech_end_time := 0,
              waiting_for_response := true, child_speech_time := 1000,
              last_was_child := true } 2000
          confidence := 8 / 10
          pitch_hz := 0
          response_latency := (u32_sub 1500 1000 : ℚ) / 1000
          silence_duration := 0 }]) :=
  ⟨by norm_num,
   ((process_speech_segment_spec
      { session_active := true, session_start_time := 100, session_event_count := 0,
        last_was_speaking := false, last_speech_end_time := 0,
        waiting_for_response := true, child_speech_time := 1000,
        last_was_child := true }
      { start_ms := 1500, end_ms := 1800, duration_ms := 300, avg_energy := 1 / 2 }
      2000).2.1 (by norm_num) rfl).1 (by decide)⟩

/-- C5: with waiting-for-response set and the measured silence at least
`MISSED_OPP_THRESHOLD_MS` (5000 ms), `check_missed_opportunity` emits exactly
one MissedOpportunity event carrying the silence duration and clears the
flag; with the flag clear it emits nothing (so the event is never repeated
for the same serve); and the check runs on every tick of an active session —
a `loop()` iteration that obtained no audio frame still performs it. -/
theorem check_missed_opportunity_spec (tv : TurnVars) (vadSt : VadVars) (now : Nat)
    (hw : tv.waiting_for_response = true)
    (hs : MISSED_OPP_THRESHOLD_MS ≤ vad_silence_duration vadSt now) :
    check_missed_opportunity tv vadSt now =
      ({ tv with
          session_event_count := tv.session_event_count + 1
          waiting_for_response := false
          last_was_child := false },
       [{ type := BLEEventType.missed_opportunity
          timestamp := get_session_timestamp tv now
          confidence := 8 / 10
          pitch_hz := 0
          response_latency := 0
          silence_duration := (vad_silence_duration vadSt now : ℚ) / 1000 }]) ∧
    (check_missed_opportunity tv vadSt now).1.waiting_for_response = false ∧
    (∀ (tv2 : TurnVars) (vs2 : VadVars) (n2 : Nat),
      tv2.waiting_for_response = false →
      check_missed_opportunity tv2 vs2 n2 = (tv2, [])) ∧
    (∀ (au : AudioState) (ar : Bool), tv.session_active = true →
      loop_tick { turn := tv, vad := vadSt, audio := au, audio_running := ar }
          now none =
        ({ turn := { tv with
              session_event_count := tv.session_event_count + 1
              waiting_for_response := false
              last_was_child := false },
           vad := vadSt, audio := au, audio_running := ar },
         [{ type := BLEEventType.missed_opportunity
            timestamp := get_session_timestamp tv now
            confidence := 8 / 10
            pitch_hz := 0
            response_latency := 0
            silence_duration := (vad_silence_duration vadSt now : ℚ) / 1000 }])) := by
  have hmain : check_missed_opportunity tv vadSt now =
      ({ tv with
          session_event_count := tv.session_event_count + 1
          waiting_for_response := false
          last_was_child := false },
       [{ type := BLEEventType.missed_opportunity
          timestamp := get_session_timestamp tv now
          confidence := 8 / 10
          pitch_hz := 0
          response_latency := 0
          silence_duration := (vad_silence_duration vadSt now : ℚ) / 1000 }]) := by
    unfold check_missed_opportunity send_event
    dsimp only
    rw [if_neg (by rw [hw]; decide), if_pos hs]
    simp
  refine ⟨hmain, by rw [hmain], ?_, ?_⟩
  · intro tv2 vs2 n2 h2
    unfold check_missed_opportunity
    rw [if_pos h2]
  · intro au ar hact
    unfold loop_tick
    rw [if_pos hact]
    dsimp only
    rw [hmain]
    rfl

theorem check_missed_opportunity_spec_witness :
    (({ session_active := true, session_start_time := 100, session_event_count := 0,
        last_was_speaking := false, last_speech_end_time := 0,
        waiting_for_response := true, child_speech_time := 800,
        last_was_child := true } : TurnVars).waiting_for_response = true) ∧
    MISSED_OPP_THRESHOLD_MS ≤
      vad_silence_duration { vad_init 0 with last_speech_time := 1 } 6001 ∧
    check_missed_opportunity
        { session_active := true, session_start_time := 100, session_event_count := 0,
          last_was_speaking := false, last_speech_end_time := 0,
          waiting_for_response := true, child_speech_time := 800,
          last_was_child := true }
        { vad_init 0 with last_speech_time := 1 } 6001 =
      ({ session_active := true, session_start_time := 100, session_event_count := 1,
         last_was_speaking := false, last_speech_end_time := 0,
         waiting_for_response := false, child_speech_time := 800,
         last_was_child := false },
       [{ type := BLEEventType.missed_opportunity
          timestamp := get_session_timestamp
            { session_active := true, session_start_time := 100, session_event_count := 0,
              last_was_speaking := false, last_speech_end_time := 0,
              waiting_for_response := true, child_speech_time := 800,
              last_was_child := true } 6001
          confidence := 8 / 10
          pitch_hz := 0
          response_latency := 0
          silence_duration :=
            (vad_silence_duration { vad_init 0 with last_speech_time := 1 } 6001 : ℚ)
              / 1000 }]) :=
  ⟨rfl, by decide,
   (check_missed_opportunity_spec
      { session_active := true, session_start_time := 100, session_event_count := 0,
        last_was_speaking := false, last_speech_end_time := 0,
        waiting_for_response := true, child_speech_time := 800,
        last_was_child := true }
      { vad_init 0 with last_speech_time := 1 } 6001 rfl (by decide)).1⟩

theorem find?_range'_first (p : Nat → Bool) :
    ∀ (n s tau : Nat), (List.range' s n).find? p = some tau →
      s ≤ tau ∧ tau < s + n ∧ p tau = true ∧
      ∀ k, s ≤ k → k < tau → p k = false := by
  intro n
  induction n with
  | zero =>
    intro s tau h
    simp [List.range'] at h
  | succ m ih =>
    intro s tau h
    rw [show List.range' s (m + 1) = s :: List.range' (s + 1) m from rfl] at h
    by_cases hps : p s = true
    · rw [List.find?_cons_of_pos _ hps] at h
      injection h with h
      subst h
      refine ⟨le_refl _, by omega, hps, fun k h1 h2 => absurd h2 (by omega)⟩
    · have hps' : p s = false := by
        cases hv : p s
        · rfl
        · exact absurd hv hps
      rw [List.find?_cons_of_neg _ (by rw [hps']; decide)] at h
      obtain ⟨h1, h2, h3, h4⟩ := ih (s + 1) tau h
      refine ⟨by omega, by omega, h3, fun k hk1 hk2 => ?_⟩
      by_cases hks : k = s
      · rw [hks]
        exact hps'
      · exact h4 k (by omega) hk2

theorem find?_range'_all_neg (p : Nat → Bool) (s n : Nat)
    (h : (List.range' s n).find? p = none) :
    ∀ k, s ≤ k → k < s + n → p k = false := by
  intro k h1 h2
  have := List.find?_eq_none.mp h k (by rw [List.mem_range'_1]; omega)
  cases hv : p k
  · rfl
  · exact absurd hv this

theorem minLoop_range'_spec (d : Nat → ℚ) :
    ∀ (n s bt : Nat), bt < s →
      (minLoop d (List.range' s n) (bt, d bt)).2
        = d (minLoop d (List.range' s n) (bt, d bt)).1 ∧
      ((minLoop d (List.range' s n) (bt, d bt)).1 = bt ∨
        (s ≤ (minLoop d (List.range' s n) (bt, d bt)).1 ∧
         (minLoop d (List.range' s n) (bt, d bt)).1 < s + n)) ∧
      (minLoop d (List.range' s n) (bt, d bt)).2 ≤ d bt ∧
      (∀ tau, s ≤ tau → tau < s + n →
        (minLoop d (List.range' s n) (bt, d bt)).2 ≤ d tau) ∧
      (∀ tau, s ≤ tau → tau < (minLoop d (List.range' s n) (bt, d bt)).1 →
        (minLoop d (List.range' s n) (bt, d bt)).2 < d tau) ∧
      ((minLoop d (List.range' s n) (bt, d bt)).1 ≠ bt →
        (minLoop d (List.range' s n) (bt, d bt)).2 < d bt) := by
  intro n
  induction n with
  | zero =>
    intro s bt hbs
    have hzero : minLoop d (List.range' s 0) (bt, d bt) = (bt, d bt) := rfl
    rw [hzero]
    refine ⟨rfl, Or.inl rfl, le_refl _, ?_, ?_, ?_⟩
    · intro tau h1 h2
      omega
    · intro tau h1 h2
      dsimp only at h2
      omega
    · intro h
      exact absurd rfl h
  | succ m ih =>
    intro s bt hbs
    rw [show List.range' s (m + 1) = s :: List.range' (s + 1) m from rfl]
    by_cases hc : d s < d bt
    · have hstep : minLoop d (s :: List.range' (s + 1) m) (bt, d bt)
          = minLoop d (List.range' (s + 1) m) (s, d s) := by
        simp only [minLoop]
        rw [if_pos hc]
      rw [hstep]
      obtain ⟨i1, i2, i3, i4, i5, i6⟩ := ih (s + 1) s (by omega)
      refine ⟨i1, ?_, ?_, ?_, ?_, ?_⟩
      · rcases i2 with h | h
        · exact Or.inr ⟨by omega, by omega⟩
        · exact Or.inr ⟨by omega, by omega⟩
      · exact le_of_lt (lt_of_le_of_lt i3 hc)
      · intro tau h1 h2
        by_cases hts : tau = s
        · rw [hts]
          exact i3
        · exact i4 tau (by omega) (by omega)
      · intro tau h1 h2
        by_cases hts : tau = s
        · subst hts
          exact i6 (by omega)
        · exact i5 tau (by omega) h2
      · intro _
        exact lt_of_le_of_lt i3 hc
    · have hstep : minLoop d (s :: List.range' (s + 1) m) (bt, d bt)
          = minLoop d (List.range' (s + 1) m) (bt, d bt) := by
        simp only [minLoop]
        rw [if_neg hc]
      rw [hstep]
      obtain ⟨i1, i2, i3, i4, i5, i6⟩ := ih (s + 1) bt (by omega)
      refine ⟨i1, ?_, i3, ?_, ?_, i6⟩
      · rcases i2 with h | h
        · exact Or.inl h
        · exact Or.inr ⟨by omega, by omega⟩
      · intro tau h1 h2
        by_cases hts : tau = s
        · rw [hts]
          exact le_trans i3 (not_lt.mp hc)
        · exact i4 tau (by omega) (by omega)
      · intro tau h1 h2
        by_cases hts : tau = s
        · subst hts
          exact lt_of_lt_of_le (i6 (by omega)) (not_lt.mp hc)
        · exact i5 tau (by omega) h2

/-- C6 counterexample: with difference values (1, 0.01, 0.02, 0.2, 0.05, 1)
and search range [2, 6)... here [2, 5): lag 4 = tau_max - 1 is below the
0.15 threshold and a local minimum (the only qualifying lag in [2, 5)), so
the claim says the scan returns 4; but the code's scan stops at
tau_max - 2 = 3, never tests lag 4, and falls through to the global minimum,
returning lag 2 (value 0.02, not a local minimum since d(1) = 0.01 < 0.02). -/
theorem yin_absolute_threshold_skips_last_lag :
    yin_absolute_threshold yin_cex_diff 2 5 (15 / 100) = some 2 ∧
    (yin_cex_diff 4 < 15 / 100 ∧ yin_cex_diff 4 < yin_cex_diff 3 ∧
      yin_cex_diff 4 ≤ yin_cex_diff 5) ∧
    ¬ (yin_cex_diff 2 < 15 / 100 ∧ yin_cex_diff 2 < yin_cex_diff 1 ∧
      yin_cex_diff 2 ≤ yin_cex_diff 3) ∧
    ¬ (yin_cex_diff 3 < 15 / 100 ∧ yin_cex_diff 3 < yin_cex_diff 2 ∧
      yin_cex_diff 3 ≤ yin_cex_diff 4) ∧
    (2 : Nat) ≠ 4 := by with_unfolding_all decide

/-- C6 (amended): over the search range [tau_min, tau_max), the YIN lag
selection returns the smallest lag in [tau_min, tau_max - 1) — the last lag
is never tested against the threshold — whose normalised difference is below
0.15 and is a local minimum (strictly less than its left neighbour, no
greater than its right neighbour); if no lag in that scan range qualifies,
it returns the smallest lag attaining the global minimum over the full
[tau_min, tau_max), provided that minimum is below 0.5, and otherwise
reports no pitch (unvoiced). -/
theorem yin_absolute_threshold_spec (d : Nat → ℚ) (tau_min tau_max : Nat)
    (h1 : tau_min < tau_max) :
    (∀ tau, yin_absolute_threshold d tau_min tau_max YIN_THRESHOLD = some tau →
      (tau_min ≤ tau ∧ tau + 1 < tau_max ∧
       (d tau < YIN_THRESHOLD ∧ d tau < d (tau - 1) ∧ d tau ≤ d (tau + 1)) ∧
       (∀ k, tau_min ≤ k → k < tau →
         ¬ (d k < YIN_THRESHOLD ∧ d k < d (k - 1) ∧ d k ≤ d (k + 1)))) ∨
      ((∀ k, tau_min ≤ k → k + 1 < tau_max →
          ¬ (d k < YIN_THRESHOLD ∧ d k < d (k - 1) ∧ d k ≤ d (k + 1))) ∧
       tau_min ≤ tau ∧ tau < tau_max ∧ d tau < 1 / 2 ∧
       (∀ k, tau_min ≤ k → k < tau_max → d tau ≤ d k) ∧
       (∀ k, tau_min ≤ k → k < tau → d tau < d k))) ∧
    (yin_absolute_threshold d tau_min tau_max YIN_THRESHOLD = none →
      (∀ k, tau_min ≤ k → k + 1 < tau_max →
        ¬ (d k < YIN_THRESHOLD ∧ d k < d (k - 1) ∧ d k ≤ d (k + 1))) ∧
      (∀ k, tau_min ≤ k → k < tau_max → 1 / 2 ≤ d k)) := by
  have hmin := minLoop_range'_spec d (tau_max - (tau_min + 1)) (tau_min + 1) tau_min
    (by omega)
  constructor
  · intro tau htau
    unfold yin_absolute_threshold at htau
    cases hf : (List.range' tau_min (tau_max - 1 - tau_min)).find?
        (fun tau => decide (d tau < YIN_THRESHOLD ∧ d tau < d (tau - 1) ∧
          d tau ≤ d (tau + 1))) with
    | some tau0 =>
      rw [hf] at htau
      injection htau with htau
      subst htau
      left
      obtain ⟨f1, f2, f3, f4⟩ := find?_range'_first _ _ _ _ hf
      refine ⟨f1, by omega, of_decide_eq_true f3, fun k hk1 hk2 => ?_⟩
      have := f4 k hk1 hk2
      exact of_decide_eq_false this
    | none =>
      rw [hf] at htau
      dsimp only at htau
      have hneg := find?_range'_all_neg _ _ _ hf
      have hnoq : ∀ k, tau_min ≤ k → k + 1 < tau_max →
          ¬ (d k < YIN_THRESHOLD ∧ d k < d (k - 1) ∧ d k ≤ d (k + 1)) := by
        intro k hk1 hk2
        exact of_decide_eq_false (hneg k hk1 (by omega))
      obtain ⟨m1, m2, m3, m4, m5, m6⟩ := hmin
      by_cases hlt : (minLoop d (List.range' (tau_min + 1) (tau_max - (tau_min + 1)))
          (tau_min, d tau_min)).2 < 1 / 2
      · rw [if_pos hlt] at htau
        injection htau with htau
        right
        rw [← htau]
        have hb : tau_min ≤ (minLoop d
            (List.range' (tau_min + 1) (tau_max - (tau_min + 1)))
            (tau_min, d tau_min)).1 ∧
            (minLoop d (List.range' (tau_min + 1) (tau_max - (tau_min + 1)))
              (tau_min, d tau_min)).1 < tau_max := by
          rcases m2 with h | h
          · omega
          · omega
        refine ⟨hnoq, hb.1, hb.2, ?_, ?_, ?_⟩
        · rw [← m1]
          exact hlt
        · intro k hk1 hk2
          by_cases hke : k = tau_min
          · subst hke
            rw [← m1]
            exact m3
          · rw [← m1]
            exact m4 k (by omega) (by omega)
        · intro k hk1 hk2
          by_cases hke : k = tau_min
          · subst hke
            rw [← m1]
            exact m6 (by omega)
          · rw [← m1]
            exact m5 k (by omega) hk2
      · rw [if_neg hlt] at htau
        exact absurd htau (by simp)
  · intro hnone
    unfold yin_absolute_threshold at hnone
    cases hf : (List.range' tau_min (tau_max - 1 - tau_min)).find?
        (fun tau => decide (d tau < YIN_THRESHOLD ∧ d tau < d (tau - 1) ∧
          d tau ≤ d (tau + 1))) with
    | some tau0 =>
      rw [hf] at hnone
      exact absurd hnone (by simp)
    | none =>
      rw [hf] at hnone
      dsimp only at hnone
      have hneg := find?_range'_all_neg _ _ _ hf
      have hnoq : ∀ k, tau_min ≤ k → k + 1 < tau_max →
          ¬ (d k < YIN_THRESHOLD ∧ d k < d (k - 1) ∧ d k ≤ d (k + 1)) := by
        intro k hk1 hk2
        exact of_decide_eq_false (hneg k hk1 (by omega))
      obtain ⟨m1, m2, m3, m4, m5, m6⟩ := hmin
      by_cases hlt : (minLoop d (List.range' (tau_min + 1) (tau_max - (tau_min + 1)))
          (tau_min, d tau_min)).2 < 1 / 2
      · rw [if_pos hlt] at hnone
        exact absurd hnone (by simp)
      · refine ⟨hnoq, fun k hk1 hk2 => ?_⟩
        have hge : (1 : ℚ) / 2 ≤ (minLoop d
            (List.range' (tau_min + 1) (tau_max - (tau_min + 1)))
            (tau_min, d tau_min)).2 := not_lt.mp hlt
        by_cases hke : k = tau_min
        · subst hke
          exact le_trans hge m3
        · exact le_trans hge (m4 k (by omega) (by omega))

theorem yin_absolute_threshold_spec_witness :
    (2 : Nat) < 5 ∧
    ((2 ≤ 2 ∧ 2 + 1 < 5 ∧
      (yin_cex_diff 2 < YIN_THRESHOLD ∧ yin_cex_diff 2 < yin_cex_diff (2 - 1) ∧
        yin_cex_diff 2 ≤ yin_cex_diff (2 + 1)) ∧
      (∀ k, 2 ≤ k → k < 2 →
        ¬ (yin_cex_diff k < YIN_THRESHOLD ∧ yin_cex_diff k < yin_cex_diff (k - 1) ∧
          yin_cex_diff k ≤ yin_cex_diff (k + 1)))) ∨
     ((∀ k, 2 ≤ k → k + 1 < 5 →
        ¬ (yin_cex_diff k < YIN_THRESHOLD ∧ yin_cex_diff k < yin_cex_diff (k - 1) ∧
          yin_cex_diff k ≤ yin_cex_diff (k + 1))) ∧
      2 ≤ 2 ∧ 2 < 5 ∧ yin_cex_diff 2 < 1 / 2 ∧
      (∀ k, 2 ≤ k → k < 5 → yin_cex_diff 2 ≤ yin_cex_diff k) ∧
      (∀ k, 2 ≤ k → k < 2 → yin_cex_diff 2 < yin_cex_diff k))) :=
  ⟨by decide,
   (yin_absolute_threshold_spec yin_cex_diff 2 5 (by decide)).1 2
     (by with_unfolding_all decide)⟩

/-- C7: every failure mode of `pitch_estimate` — a window shorter than twice
the maximum lag, RMS below the 0.01 silence floor (equivalently
energy/count below (0.01 * 32768)^2, including an all-zero window), no lag
passing the threshold step, or a non-positive refined lag from
interpolation — yields the explicit invalid result: validity false,
frequency 0, confidence 0, speaker Unknown, never a sentinel frequency. -/
theorem pitch_estimate_failure_invalid (samples : List Int) (sample_rate : Nat)
    (h :
      samples.length <
        (if 255 < sample_rate / PITCH_MIN_HZ then 255
         else sample_rate / PITCH_MIN_HZ) * 2 ∨
      ((((samples.map (fun s => s * s)).sum : ℤ) : ℚ) / samples.length
        < (32768 / 100) ^ 2) ∨
      yin_absolute_threshold
        (yin_cumulative_mean
          (yin_difference samples
            (if 255 < sample_rate / PITCH_MIN_HZ then 255
             else sample_rate / PITCH_MIN_HZ))
          (if 255 < sample_rate / PITCH_MIN_HZ then 255
           else sample_rate / PITCH_MIN_HZ))
        (sample_rate / PITCH_MAX_HZ)
        (if 255 < sample_rate / PITCH_MIN_HZ then 255
         else sample_rate / PITCH_MIN_HZ) YIN_THRESHOLD = none ∨
      (∀ tau,
        yin_absolute_threshold
          (yin_cumulative_mean
            (yin_difference samples
              (if 255 < sample_rate / PITCH_MIN_HZ then 255
               else sample_rate / PITCH_MIN_HZ))
            (if 255 < sample_rate / PITCH_MIN_HZ then 255
             else sample_rate / PITCH_MIN_HZ))
          (sample_rate / PITCH_MAX_HZ)
          (if 255 < sample_rate / PITCH_MIN_HZ then 255
           else sample_rate / PITCH_MIN_HZ) YIN_THRESHOLD = some tau →
        yin_parabolic_interpolation
          (yin_cumulative_mean
            (yin_difference samples
              (if 255 < sample_rate / PITCH_MIN_HZ then 255
               else sample_rate / PITCH_MIN_HZ))
            (if 255 < sample_rate / PITCH_MIN_HZ then 255
             else sample_rate / PITCH_MIN_HZ))
          tau
          (if 255 < sample_rate / PITCH_MIN_HZ then 255
           else sample_rate / PITCH_MIN_HZ) ≤ 0)) :
    pitch_estimate samples sample_rate =
      { valid := false, pitch_hz := 0, confidence := 0,
        speaker := SpeakerType.unknown } := by
  unfold pitch_estimate
  dsimp only
  by_cases h1 : samples.length <
      (if 255 < sample_rate / PITCH_MIN_HZ then 255
       else sample_rate / PITCH_MIN_HZ) * 2
  · rw [if_pos h1]
  · rw [if_neg h1]
    by_cases h2 : ((((samples.map (fun s => s * s)).sum : ℤ) : ℚ) / samples.length
        < (32768 / 100) ^ 2)
    · rw [if_pos h2]
    · rw [if_neg h2]
      cases hth : yin_absolute_threshold
          (yin_cumulative_mean
            (yin_difference samples
              (if 255 < sample_rate / PITCH_MIN_HZ then 255
               else sample_rate / PITCH_MIN_HZ))
            (if 255 < sample_rate / PITCH_MIN_HZ then 255
             else sample_rate / PITCH_MIN_HZ))
          (sample_rate / PITCH_MAX_HZ)
          (if 255 < sample_rate / PITCH_MIN_HZ then 255
           else sample_rate / PITCH_MIN_HZ) YIN_THRESHOLD with
      | none =>
        rfl
      | some tau =>
        dsimp only
        rcases h with h | h | h | h
        · exact absurd h h1
        · exact absurd h h2
        · rw [h] at hth
          exact absurd hth (by simp)
        · rw [if_pos (h tau hth)]

theorem pitch_estimate_failure_invalid_witness :
    ((((List.replicate 800 (0 : Int)).map (fun s => s * s)).sum : ℤ) : ℚ)
        / (List.replicate 800 (0 : Int)).length < (32768 / 100) ^ 2 ∧
    pitch_estimate (List.replicate 800 0) 16000 =
      { valid := false, pitch_hz := 0, confidence := 0,
        speaker := SpeakerType.unknown } :=
  ⟨by norm_num [List.map_replicate, List.sum_replicate],
   pitch_estimate_failure_invalid (List.replicate 800 0) 16000
     (Or.inr (Or.inl (by norm_num [List.map_replicate, List.sum_replicate])))⟩
